import Mathlib

/-!
Verification of the Excel batch encrypt/decrypt tool
(src/Excel批量解密工具与密码管理.py) against its natural-language
specification.

The Lean definitions below are a shallow embedding of the Python source.
Pure helpers are translated directly; the stateful parts (the processing
thread loop, the password-book loading loop, the validation gate before a
run starts) are translated into explicit state passing, with the external
world (file system, the Excel COM service, text decoding) supplied as
explicit environment parameters that describe the outcome of each external
call.  Every definition is annotated with the source lines it embeds.
-/

set_option maxHeartbeats 1000000

namespace ExcelTool

/-! ## PasswordBook: ExcelProtectorGUI.load_password_book, source lines 558-614

The dictionary `self.password_dict` is modelled as a function from
filename to optional password (Python dict lookup semantics).  A row
produced by the csv reader is a `List String`.  One attempt to read the
file under one encoding is a `DecodeAttempt`: either the decode raised
(UnicodeDecodeError or any other exception, source lines 598-602) after
the reader had already yielded some prefix of rows (Python text IO
decodes lazily, so rows can be consumed before the error fires), or the
whole file decoded and yielded `rows`.  The source clears
`self.password_dict` exactly once, before the encoding loop (line 566),
not once per attempt. -/

/-- Python default whitespace for str.strip (space, tab, newline,
carriage return, vertical tab, form feed). -/
def pyIsSpace (c : Char) : Bool :=
  c.isWhitespace || c == '\x0b' || c == '\x0c'

/-- Python str.strip(): drop leading and trailing whitespace. -/
def pyStrip (s : String) : String :=
  String.mk (((s.data.dropWhile pyIsSpace).reverse.dropWhile pyIsSpace).reverse)

/-- Python str.startswith. -/
def strStartsWith (s pat : String) : Bool :=
  pat.data.isPrefixOf s.data

def PDict : Type := String → Option String

def emptyPDict : PDict := fun _ => none

/-- Python dict assignment `self.password_dict[filename] = password`
(source line 592). -/
def dictInsert (d : PDict) (k v : String) : PDict :=
  fun x => if x = k then some v else d x

/-- Python lookup `self.password_dict[filename] if filename in
self.password_dict else None` (source lines 623-624). -/
def pdictLookup (d : PDict) (q : String) : Option String := d q

/-- Body of the row loop, source lines 582-593: skip empty rows and rows
whose first field (stripped) starts with the comment marker; require at
least two fields; strip both fields; drop the row when the stripped
filename is empty; otherwise assign into the dict (last write wins). -/
def processRow (d : PDict) (row : List String) : PDict :=
  match row with
  | [] => d
  | f :: rest =>
    if strStartsWith (pyStrip f) "#" then d
    else
      match rest with
      | [] => d
      | p :: _ =>
        if pyStrip f = "" then d else dictInsert d (pyStrip f) (pyStrip p)

/-- The full row loop over the rows yielded by one decode attempt
(source lines 582-593). -/
def processRows (d : PDict) (rows : List (List String)) : PDict :=
  rows.foldl processRow d

/-- Outcome of trying to read the password-book file under one encoding
(source lines 572-602).  `fails yielded` models a decode (or other)
exception raised after `yielded` rows were already consumed by the row
loop; `succeeds rows` models a clean read of the whole file. -/
inductive DecodeAttempt where
  | fails (yielded : List (List String))
  | succeeds (rows : List (List String))
deriving DecidableEq

def DecodeAttempt.rowsOf : DecodeAttempt → List (List String)
  | .fails rs => rs
  | .succeeds rs => rs

def DecodeAttempt.isFails : DecodeAttempt → Bool
  | .fails _ => true
  | .succeeds _ => false

/-- The encoding loop, source lines 572-604: each attempt feeds its rows
into the (never reset) dict; the first successful attempt breaks the
loop; when every encoding fails the function raises (modelled by
`none`, source lines 603-604). -/
def loadLoop : List DecodeAttempt → PDict → Option PDict
  | [], _ => none
  | .fails rs :: rest, d => loadLoop rest (processRows d rs)
  | .succeeds rs :: _, d => some (processRows d rs)

/-- ExcelProtectorGUI.load_password_book, source lines 558-614, with the
file system and decoder abstracted into the per-encoding attempt list
(one entry per encoding tried, in the fixed order of line 570). -/
def load_password_book (attempts : List DecodeAttempt) : Option PDict :=
  loadLoop attempts emptyPDict

/-- Spec-side (section 8 of the spec): the password of the last row in
file order whose filename field equals the query. -/
def lastMatchPassword (q : String) : List (List String) → Option String
  | [] => none
  | r :: rs =>
    match lastMatchPassword q rs with
    | some p => some p
    | none =>
      match r with
      | f :: p :: _ => if f = q then some p else none
      | _ => none

/-- A well-formed data row of a valid password-book file: at least two
fields, both already free of surrounding whitespace, filename non-empty
and not a comment. -/
def validRowB (row : List String) : Bool :=
  match row with
  | f :: p :: _ =>
    (pyStrip f == f) && (pyStrip p == p) && (f != "") && (!(strStartsWith f "#"))
  | _ => false

/-! ### PasswordBook lemmas -/

theorem processRow_preserves_empty (d : PDict) (row : List String)
    (h : d "" = none) : processRow d row "" = none := by
  rcases row with _ | ⟨f, _ | ⟨p, rest⟩⟩
  · exact h
  · simp only [processRow]
    split
    · exact h
    · exact h
  · simp only [processRow]
    split
    · exact h
    · split
      · exact h
      · rename_i hne
        simp only [dictInsert]
        rw [if_neg (fun hc => hne hc.symm)]
        exact h

theorem processRows_preserves_empty (rows : List (List String)) :
    ∀ d : PDict, d "" = none → processRows d rows "" = none := by
  induction rows with
  | nil => intro d h; exact h
  | cons r rs ih =>
    intro d h
    exact ih (processRow d r) (processRow_preserves_empty d r h)

theorem loadLoop_preserves_empty (attempts : List DecodeAttempt) :
    ∀ d : PDict, d "" = none →
      ∀ d2, loadLoop attempts d = some d2 → d2 "" = none := by
  induction attempts with
  | nil =>
    intro d h d2 hc
    exact absurd hc (by simp [loadLoop])
  | cons a rest ih =>
    intro d h d2 hc
    cases a with
    | fails rs =>
      exact ih (processRows d rs) (processRows_preserves_empty rs d h) d2 hc
    | succeeds rs =>
      simp only [loadLoop] at hc
      have h2 := Option.some.inj hc
      rw [← h2]
      exact processRows_preserves_empty rs d h

theorem loadLoop_fails_pre (pre : List DecodeAttempt) :
    ∀ (d : PDict) (rows : List (List String)) (rest : List DecodeAttempt),
      (∀ a ∈ pre, a.isFails = true) →
      loadLoop (pre ++ DecodeAttempt.succeeds rows :: rest) d =
        some (processRows (pre.foldl (fun d2 a => processRows d2 a.rowsOf) d) rows) := by
  induction pre with
  | nil => intro d rows rest h; rfl
  | cons a pre2 ih =>
    intro d rows rest h
    cases a with
    | fails rs =>
      exact ih (processRows d rs) rows rest (fun a2 ha => h a2 (by simp [ha]))
    | succeeds rs =>
      have := h (DecodeAttempt.succeeds rs) (by simp)
      simp [DecodeAttempt.isFails] at this

theorem processRows_lastMatch (q : String) (rows : List (List String))
    (hv : rows.all validRowB = true) :
    ∀ d : PDict, processRows d rows q =
      match lastMatchPassword q rows with
      | some p => some p
      | none => d q := by
  induction rows with
  | nil => intro d; rfl
  | cons r rs ih =>
    intro d
    have hv2 : validRowB r = true ∧ rs.all validRowB = true := by
      simpa [List.all_cons, Bool.and_eq_true] using hv
    rcases r with _ | ⟨f, _ | ⟨p, rest⟩⟩
    · simp [validRowB] at hv2
    · simp [validRowB] at hv2
    · have hrow := hv2.1
      simp only [validRowB, Bool.and_eq_true, beq_iff_eq, bne_iff_ne,
        Bool.not_eq_true', ne_eq] at hrow
      obtain ⟨⟨⟨htf, htp⟩, hfne⟩, hsharp⟩ := hrow
      have hstep : processRow d (f :: p :: rest) = dictInsert d f p := by
        simp [processRow, htf, htp, hsharp, hfne]
      have := ih hv2.2 (dictInsert d f p)
      simp only [processRows, List.foldl_cons] at this ⊢
      rw [hstep, this]
      rcases hlast : lastMatchPassword q rs with _ | p0
      · simp only [lastMatchPassword, hlast, dictInsert]
        by_cases hqf : f = q
        · rw [if_pos hqf, if_pos hqf.symm]
        · rw [if_neg hqf, if_neg (fun hc => hqf hc.symm)]
      · simp [lastMatchPassword, hlast]

theorem foldl_fails_nil (pre : List DecodeAttempt)
    (h : ∀ a ∈ pre, a = DecodeAttempt.fails []) :
    pre.foldl (fun d2 a => processRows d2 a.rowsOf) emptyPDict = emptyPDict := by
  induction pre with
  | nil => rfl
  | cons a pre2 ih =>
    have ha := h a (by simp)
    subst ha
    simp only [List.foldl_cons]
    exact ih (fun a2 ha2 => h a2 (by simp [ha2]))

/-! ### Claims C4, C5, C10 -/

/-- Claim C4 counterexample: a decode attempt that fails after yielding a
garbled row leaves that row in the returned mapping, because the dict is
cleared only once, before the encoding loop (source line 566).  Here the
first encoding fails after yielding the row (garbled.xlsx, p1), the
second encoding succeeds with only (real.xlsx, p2), yet lookup of
garbled.xlsx in the result still returns p1 — partial results of the
failed attempt are merged into the returned mapping, contradicting the
claim. -/
theorem C4_counterexample :
    (load_password_book
        [DecodeAttempt.fails [["garbled.xlsx", "p1"]],
         DecodeAttempt.succeeds [["real.xlsx", "p2"]]]).map
      (fun d => pdictLookup d "garbled.xlsx") = some (some "p1") ∧
    ("garbled.xlsx" : String) ≠ "real.xlsx" := by
  constructor
  · rfl
  · decide

/-- Claim C4 (amended): the load tries the fixed ordered encoding list
and stops at the first encoding that decodes the file without error —
later encodings are never consulted; however, rows yielded by earlier
failed attempts before their decode error are retained (the mapping is
cleared only once, before the first attempt) and the successful
attempt's rows are applied on top of them. -/
theorem C4_stop_at_first_success (pre : List DecodeAttempt)
    (rows : List (List String)) (rest : List DecodeAttempt)
    (h : ∀ a ∈ pre, a.isFails = true) :
    load_password_book (pre ++ DecodeAttempt.succeeds rows :: rest) =
      some (processRows
        (pre.foldl (fun d a => processRows d a.rowsOf) emptyPDict) rows) :=
  loadLoop_fails_pre pre emptyPDict rows rest h

/-- Witness for C4 (amended) at a concrete attempt list: one failed
attempt, then success; the trailing attempt is ignored. -/
theorem C4_witness :
    ((∀ a ∈ [DecodeAttempt.fails [["x.xlsx", "1"]]], a.isFails = true) ∧
      load_password_book
          ([DecodeAttempt.fails [["x.xlsx", "1"]]] ++
            DecodeAttempt.succeeds [["y.xlsx", "2"]] ::
              [DecodeAttempt.succeeds [["z.xlsx", "3"]]]) =
        some (processRows
          ([DecodeAttempt.fails [["x.xlsx", "1"]]].foldl
            (fun d a => processRows d a.rowsOf) emptyPDict)
          [["y.xlsx", "2"]])) :=
  ⟨by decide,
    C4_stop_at_first_success [DecodeAttempt.fails [["x.xlsx", "1"]]]
      [["y.xlsx", "2"]] [DecodeAttempt.succeeds [["z.xlsx", "3"]]] (by decide)⟩

/-- Claim C5: for a valid password-book file (earlier encodings fail
before yielding any row, some attempt then decodes the whole file, and
every row is a well-formed data row), load followed by lookup returns
exactly the password of the last row in file order whose filename field
equals the query. -/
theorem C5_last_row_wins (pre : List DecodeAttempt)
    (rows : List (List String)) (rest : List DecodeAttempt) (q : String)
    (hpre : ∀ a ∈ pre, a = DecodeAttempt.fails [])
    (hv : rows.all validRowB = true) :
    (load_password_book (pre ++ DecodeAttempt.succeeds rows :: rest)).map
        (fun d => pdictLookup d q) = some (lastMatchPassword q rows) := by
  have h1 : ∀ a ∈ pre, a.isFails = true := by
    intro a ha
    rw [hpre a ha]
    rfl
  simp only [load_password_book]
  rw [loadLoop_fails_pre pre emptyPDict rows rest h1, foldl_fails_nil pre hpre]
  simp only [Option.map_some']
  congr 1
  rw [show pdictLookup (processRows emptyPDict rows) q =
        processRows emptyPDict rows q from rfl,
    processRows_lastMatch q rows hv emptyPDict]
  rcases lastMatchPassword q rows with _ | p
  · rfl
  · rfl

/-- Witness for C5 at a concrete file with a duplicate filename: the
later row wins. -/
theorem C5_witness :
    ([["a.xlsx", "p1"], ["a.xlsx", "p2"]].all validRowB = true) ∧
    (load_password_book
        ([] ++ DecodeAttempt.succeeds [["a.xlsx", "p1"], ["a.xlsx", "p2"]] :: [])).map
        (fun d => pdictLookup d "a.xlsx") =
      some (lastMatchPassword "a.xlsx" [["a.xlsx", "p1"], ["a.xlsx", "p2"]]) ∧
    lastMatchPassword "a.xlsx" [["a.xlsx", "p1"], ["a.xlsx", "p2"]] = some "p2" :=
  ⟨by decide,
    C5_last_row_wins [] [["a.xlsx", "p1"], ["a.xlsx", "p2"]] [] "a.xlsx"
      (by simp) (by decide),
    by decide⟩

/-- Claim C10: the row loop strips surrounding whitespace from both the
filename and password fields and silently drops rows whose filename is
empty after stripping; consequently a mapping returned by load never
contains the empty-string key. -/
theorem C10_strip_and_drop :
    (∀ (attempts : List DecodeAttempt) (d : PDict),
        load_password_book attempts = some d → pdictLookup d "" = none) ∧
    (∀ (d : PDict) (f p : String) (rest : List String),
        processRow d (f :: p :: rest) =
          if strStartsWith (pyStrip f) "#" then d
          else if pyStrip f = "" then d
          else dictInsert d (pyStrip f) (pyStrip p)) := by
  constructor
  · intro attempts d h
    exact loadLoop_preserves_empty attempts emptyPDict rfl d h
  · intro d f p rest
    rfl

/-- Witness for C10: a concrete load whose rows carry surrounding
whitespace and one whitespace-only filename; the empty key is absent. -/
theorem C10_witness :
    load_password_book
        [DecodeAttempt.succeeds [[" a.xlsx ", " pw "], ["   ", "zz"]]] =
      some (processRows emptyPDict [[" a.xlsx ", " pw "], ["   ", "zz"]]) ∧
    pdictLookup (processRows emptyPDict [[" a.xlsx ", " pw "], ["   ", "zz"]]) "" = none :=
  ⟨rfl, C10_strip_and_drop.1 [DecodeAttempt.succeeds [[" a.xlsx ", " pw "], ["   ", "zz"]]] _ rfl⟩

/-! ## FileResolver: ExcelProtectorGUI.preview_new_filenames, source lines 825-841

The new file name is computed with os.path.splitext (line 833).  On the
Windows host this is ntpath.splitext, that is genericpath._splitext with
separator backslash, alternative separator slash and extension separator
dot: the extension starts at the last dot, provided that dot lies after
the last path separator and at least one character that is not a dot
lies between the start of the base name and that dot. -/

def isSep (c : Char) : Bool := c == '\\' || c == '/'

def notDotSep (c : Char) : Bool := !(c == '.') && !(isSep c)

def notSep (c : Char) : Bool := !(isSep c)

def splitextAux (l : List Char) : List Char → List Char × List Char
  | [] => (l, [])
  | c :: stemRev =>
    if c = '.' then
      if (stemRev.takeWhile notSep).all (fun x => x == '.') then (l, [])
      else (stemRev.reverse, '.' :: ((l.reverse).takeWhile notDotSep).reverse)
    else (l, [])

def splitextList (l : List Char) : List Char × List Char :=
  splitextAux l ((l.reverse).dropWhile notDotSep)

def splitext (s : String) : String × String :=
  (String.mk (splitextList s.data).1, String.mk (splitextList s.data).2)

/-- Source lines 827-838: when the (already stripped) suffix is
non-empty the new name is stem ++ suffix ++ extension, otherwise the
file name is unchanged. -/
def rename (filename suffix : String) : String :=
  if suffix = "" then filename
  else (splitext filename).1 ++ suffix ++ (splitext filename).2

/-! ### FileResolver lemmas -/

theorem stringDataEq {a b : String} (h : a.data = b.data) : a = b := by
  cases a
  cases b
  cases h
  rfl

theorem takeWhile_append_all {α : Type} (p : α → Bool) (xs ys : List α)
    (h : ∀ c ∈ xs, p c = true) :
    (xs ++ ys).takeWhile p = xs ++ ys.takeWhile p := by
  induction xs with
  | nil => rfl
  | cons a xs ih =>
    have ha := h a (by simp)
    simp [List.takeWhile_cons, ha, ih (fun c hc => h c (by simp [hc]))]

theorem dropWhile_append_all {α : Type} (p : α → Bool) (xs ys : List α)
    (h : ∀ c ∈ xs, p c = true) :
    (xs ++ ys).dropWhile p = ys.dropWhile p := by
  induction xs with
  | nil => rfl
  | cons a xs ih =>
    have ha := h a (by simp)
    simp [List.dropWhile_cons, ha, ih (fun c hc => h c (by simp [hc]))]

theorem splitextAux_dot (l stemRev : List Char) :
    splitextAux l ('.' :: stemRev)
      = if (stemRev.takeWhile notSep).all (fun x => x == '.') then (l, [])
        else (stemRev.reverse, '.' :: ((l.reverse).takeWhile notDotSep).reverse) := by
  simp [splitextAux]

theorem splitextAux_nondot (l : List Char) (c : Char) (stemRev : List Char)
    (hc : ¬ c = '.') : splitextAux l (c :: stemRev) = (l, []) := by
  simp [splitextAux, hc]

theorem splitextList_cases (l : List Char) :
    splitextList l = (l, []) ∨
    ∃ stem e0, splitextList l = (stem, '.' :: e0) ∧ e0.all notDotSep = true ∧
      ((stem.reverse).takeWhile notSep).all (fun x => x == '.') = false ∧
      l = stem ++ '.' :: e0 := by
  unfold splitextList
  rcases hdrop : (l.reverse).dropWhile notDotSep with _ | ⟨c, stemRev⟩
  · left; rfl
  · by_cases hceq : c = '.'
    · subst hceq
      rw [splitextAux_dot]
      by_cases hall : ((stemRev.takeWhile notSep).all fun x => x == '.') = true
      · rw [if_pos hall]; left; rfl
      · rw [if_neg hall]
        right
        refine ⟨stemRev.reverse, ((l.reverse).takeWhile notDotSep).reverse, rfl, ?_, ?_, ?_⟩
        · rw [List.all_eq_true]
          intro x hx
          rw [List.mem_reverse] at hx
          exact List.mem_takeWhile_imp hx
        · rw [List.reverse_reverse]
          simpa using hall
        · have hsplit := List.takeWhile_append_dropWhile (p := notDotSep) (l := l.reverse)
          rw [hdrop] at hsplit
          conv_lhs => rw [← List.reverse_reverse l, ← hsplit]
          simp [List.reverse_append]
    · rw [splitextAux_nondot l c stemRev hceq]; left; rfl

theorem splitextList_shift (n s e0 : List Char)
    (he0 : e0.all notDotSep = true)
    (hs : s.all notSep = true)
    (hbase : ((n.reverse).takeWhile notSep).all (fun x => x == '.') = false) :
    splitextList (n ++ s ++ '.' :: e0) = (n ++ s, '.' :: e0) := by
  have he0r : ∀ c ∈ e0.reverse, notDotSep c = true := by
    intro c hc
    rw [List.mem_reverse] at hc
    exact (List.all_eq_true.mp he0) c hc
  have hsr : ∀ c ∈ s.reverse, notSep c = true := by
    intro c hc
    rw [List.mem_reverse] at hc
    exact (List.all_eq_true.mp hs) c hc
  have hrev : (n ++ s ++ '.' :: e0).reverse
      = e0.reverse ++ '.' :: (s.reverse ++ n.reverse) := by
    simp [List.reverse_append, List.append_assoc]
  have hdw : ((n ++ s ++ '.' :: e0).reverse).dropWhile notDotSep
      = '.' :: (s.reverse ++ n.reverse) := by
    rw [hrev, dropWhile_append_all _ _ _ he0r, List.dropWhile_cons]
    simp [notDotSep]
  have htw : ((n ++ s ++ '.' :: e0).reverse).takeWhile notDotSep = e0.reverse := by
    rw [hrev, takeWhile_append_all _ _ _ he0r, List.takeWhile_cons]
    simp [notDotSep]
  have hbase2 : ((s.reverse ++ n.reverse).takeWhile notSep).all (fun x => x == '.') = false := by
    rw [takeWhile_append_all _ _ _ hsr, List.all_append, hbase, Bool.and_false]
  unfold splitextList
  rw [hdw, splitextAux_dot, if_neg (by rw [hbase2]; simp), htw]
  simp [List.reverse_append]

theorem splitextList_no_ext_append (n s : List Char)
    (hn : splitextList n = (n, []))
    (hs : s.all notDotSep = true) :
    splitextList (n ++ s) = (n ++ s, []) := by
  have hsr : ∀ c ∈ s.reverse, notDotSep c = true := by
    intro c hc
    rw [List.mem_reverse] at hc
    exact (List.all_eq_true.mp hs) c hc
  have hdw : ((n ++ s).reverse).dropWhile notDotSep
      = (n.reverse).dropWhile notDotSep := by
    rw [List.reverse_append]
    exact dropWhile_append_all _ _ _ hsr
  unfold splitextList at hn ⊢
  rw [hdw]
  rcases hdrop : (n.reverse).dropWhile notDotSep with _ | ⟨c, stemRev⟩
  · rfl
  · rw [hdrop] at hn
    by_cases hceq : c = '.'
    · subst hceq
      rw [splitextAux_dot] at hn ⊢
      by_cases hall : ((stemRev.takeWhile notSep).all fun x => x == '.') = true
      · rw [if_pos hall]
      · rw [if_neg hall] at hn
        exact absurd (congrArg Prod.snd hn) (by simp)
    · rw [splitextAux_nondot _ _ _ hceq]

theorem splitext_shift (f s : String)
    (hsep : s.data.all notSep = true)
    (hcond : (splitext f).2 ≠ "" ∨ s.data.all notDotSep = true) :
    splitext ((splitext f).1 ++ s ++ (splitext f).2)
      = ((splitext f).1 ++ s, (splitext f).2) := by
  have key : splitextList ((splitextList f.data).1 ++ s.data ++ (splitextList f.data).2)
      = ((splitextList f.data).1 ++ s.data, (splitextList f.data).2) := by
    rcases splitextList_cases f.data with hc | ⟨stem, e0, hc, he0, hbase, _⟩
    · have hs2 : s.data.all notDotSep = true := by
        rcases hcond with h | h
        · exact absurd (by simp [splitext, hc]) h
        · exact h
      rw [hc]
      simp only [List.append_nil]
      exact splitextList_no_ext_append f.data s.data hc hs2
    · rw [hc]
      exact splitextList_shift stem s.data e0 he0 hsep hbase
  calc splitext ((splitext f).1 ++ s ++ (splitext f).2)
      = (String.mk (splitextList
            ((splitextList f.data).1 ++ s.data ++ (splitextList f.data).2)).1,
         String.mk (splitextList
            ((splitextList f.data).1 ++ s.data ++ (splitextList f.data).2)).2) := rfl
    _ = (String.mk ((splitextList f.data).1 ++ s.data),
         String.mk (splitextList f.data).2) := by rw [key]
    _ = ((splitext f).1 ++ s, (splitext f).2) := rfl

/-! ### Claim C7 -/

/-- Claim C7 counterexample: for the extensionless file noext and the
dot-carrying suffix v1.2, re-applying rename does not yield literal
double-suffixing: the second splitext finds the dot inside the suffix
and moves the extension boundary, giving noextv1v1.2.2 instead of
noextv1.2v1.2. -/
theorem C7_counterexample :
    splitext "noext" = ("noext", "") ∧
    rename (rename "noext" "v1.2") "v1.2" ≠ "noext" ++ "v1.2" ++ "v1.2" ++ "" := by
  constructor
  · rfl
  · decide

/-- Claim C7 (amended): rename with the empty suffix returns the file
name unchanged, and rename with a non-empty suffix returns
stem ++ suffix ++ extension; re-applying rename with the same non-empty
suffix yields literal double-suffixing (no dedup) provided the suffix
contains no path separator and, when the extension of f is empty, no
dot — without that proviso the second split can move the extension
boundary into the suffix, as the counterexample shows. -/
theorem C7_rename_double (f s : String) :
    rename f "" = f ∧
    (s ≠ "" → rename f s = (splitext f).1 ++ s ++ (splitext f).2) ∧
    (s ≠ "" → s.data.all notSep = true →
      ((splitext f).2 ≠ "" ∨ s.data.all (fun c => !(c == '.')) = true) →
      rename (rename f s) s = (splitext f).1 ++ s ++ s ++ (splitext f).2) := by
  refine ⟨by simp [rename], fun hs => by simp [rename, hs], ?_⟩
  intro hs hsep hcond
  have hcond2 : (splitext f).2 ≠ "" ∨ s.data.all notDotSep = true := by
    rcases hcond with h | h
    · exact Or.inl h
    · right
      rw [List.all_eq_true]
      intro c hc
      have h1 := (List.all_eq_true.mp h) c hc
      have h2 := (List.all_eq_true.mp hsep) c hc
      simp only [notDotSep, Bool.and_eq_true]
      exact ⟨h1, h2⟩
  have hstep : rename f s = (splitext f).1 ++ s ++ (splitext f).2 := by
    simp [rename, hs]
  rw [hstep]
  have hsp := splitext_shift f s hsep hcond2
  simp only [rename, hs, if_neg hs, hsp]
  apply stringDataEq
  simp [List.append_assoc]

/-- Witness for C7 (amended) at the common case: file with extension and
dot-free suffix; all hypotheses hold and double-suffixing follows. -/
theorem C7_witness :
    (("_enc" : String) ≠ "" ∧ "_enc".data.all notSep = true ∧
      (splitext "report.xlsx").2 ≠ "") ∧
    rename (rename "report.xlsx" "_enc") "_enc"
      = (splitext "report.xlsx").1 ++ "_enc" ++ "_enc" ++ (splitext "report.xlsx").2 :=
  ⟨⟨by decide, by decide, by decide⟩,
    (C7_rename_double "report.xlsx" "_enc").2.2 (by decide) (by decide)
      (Or.inl (by decide))⟩

/-! ## Per-file operations: ProcessingThread.encrypt_file (source lines
142-190) and ProcessingThread.decrypt_file (source lines 192-256)

Both functions return a Python triple (ok, message, notes); external
calls (file existence checks, Workbooks.Open, setting the passwords,
SaveAs, os.remove) are abstracted into a `FileEnv` describing the
outcome of each call for this record.  File-system writes and removals
performed along the way are collected as `FsEffect` values, with the
directory they touch made explicit. -/

/-- Python substring containment `pat in s`. -/
def charsInfix (pat : List Char) : List Char → Bool
  | [] => pat.isEmpty
  | c :: rest => pat.isPrefixOf (c :: rest) || charsInfix pat rest

def strContains (s pat : String) : Bool := charsInfix pat.data s.data

/-- Python str.lower (ASCII-relevant part). -/
def lowerStr (s : String) : String := String.mk (s.data.map Char.toLower)

/-- The password-mismatch test applied to an error message by both
operations (source lines 176 and 213):
`"password" in error_msg.lower() or "密码" in error_msg`. -/
def isPasswordError (msg : String) : Bool :=
  strContains (lowerStr msg) "password" || strContains msg "密码"

/-- One record of self.file_list (source lines 72-75, built in
get_selected_files, lines 843-865). -/
structure FileInfo where
  filename : String
  new_filename : String
  password : String
  notes : String
deriving DecidableEq

/-- The Python result triple (ok, message, notes). -/
structure OpResult where
  ok : Bool
  msg : String
  notes : String
deriving DecidableEq

/-- Outcomes of the external calls made while processing one record. -/
structure FileEnv where
  /-- os.path.exists(input_filepath), lines 148 and 195. -/
  inputExists : Bool
  /-- os.path.exists(output_dir), lines 153 and 200. -/
  outputDirExists : Bool
  /-- Workbooks.Open: ok, or raises with the given message
  (lines 159 and 206-210). -/
  openResult : Except String Unit
  /-- setting wb.Password and wb.WritePassword in encrypt mode: ok, or
  raises with the given message (lines 162-163). -/
  setPasswordResult : Except String Unit
  /-- os.path.exists(output_filepath) before saving in decrypt mode,
  line 228. -/
  outputExistsBefore : Bool
  /-- wb.SaveAs: ok, or raises with the given message
  (lines 166 and 235). -/
  saveResult : Except String Unit
  /-- os.path.exists(output_filepath) after SaveAs returned,
  lines 169 and 238. -/
  outputExistsAfterSave : Bool

/-- File-system effects of the engine, with the directory touched made
explicit: removals inside the input folder, creation of the output
directory, removals and writes at the output path. -/
inductive FsEffect where
  | removeInput (name : String)
  | makeOutputDir
  | removeOutput (name : String)
  | writeOutput (name : String)
deriving DecidableEq

/-- Error classification of the encrypt try block (source lines
174-179). -/
def classifyEncryptError (msg : String) : OpResult :=
  if isPasswordError msg then ⟨false, "密码设置错误", "密码设置失败"⟩
  else ⟨false, "加密失败: " ++ msg.take 50, "加密异常"⟩

/-- ProcessingThread.encrypt_file, source lines 142-190. -/
def encrypt_file (env : FileEnv) (fi : FileInfo) : OpResult × List FsEffect :=
  if fi.password = "" then (⟨false, "未设置密码", "密码为空"⟩, [])
  else if env.inputExists = false then (⟨false, "输入文件不存在", "文件路径错误"⟩, [])
  else
    let dirEff := if env.outputDirExists then [] else [FsEffect.makeOutputDir]
    match env.openResult with
    | .error msg => (classifyEncryptError msg, dirEff)
    | .ok _ =>
      match env.setPasswordResult with
      | .error msg => (classifyEncryptError msg, dirEff)
      | .ok _ =>
        match env.saveResult with
        | .error msg => (classifyEncryptError msg, dirEff)
        | .ok _ =>
          if env.outputExistsAfterSave
          then (⟨true, "加密成功", fi.notes⟩, dirEff ++ [FsEffect.writeOutput fi.new_filename])
          else (⟨false, "保存失败", "文件未创建"⟩, dirEff ++ [FsEffect.writeOutput fi.new_filename])

/-- ProcessingThread.decrypt_file, source lines 192-256.  The open call
uses the candidate password when one is set and an unprotected open
otherwise (lines 207-210); `env.openResult` describes the outcome of
whichever call is made.  Clearing the passwords after a successful open
swallows its own errors (lines 219-223), so it contributes nothing. -/
def decrypt_file (env : FileEnv) (fi : FileInfo) : OpResult × List FsEffect :=
  if env.inputExists = false then (⟨false, "输入文件不存在", "文件路径错误"⟩, [])
  else
    let dirEff := if env.outputDirExists then [] else [FsEffect.makeOutputDir]
    match env.openResult with
    | .error msg =>
      ((if isPasswordError msg then ⟨false, "密码错误或密码不匹配", "密码不正确"⟩
        else ⟨false, "无法打开文件: " ++ msg.take 50, "打开失败"⟩ : OpResult), dirEff)
    | .ok _ =>
      let removeEff := if env.outputExistsBefore
        then [FsEffect.removeOutput fi.new_filename] else []
      match env.saveResult with
      | .error msg => (⟨false, "保存失败: " ++ msg, "保存错误"⟩, dirEff ++ removeEff)
      | .ok _ =>
        if env.outputExistsAfterSave
        then (⟨true, "解密成功", fi.notes⟩,
              dirEff ++ removeEff ++ [FsEffect.writeOutput fi.new_filename])
        else (⟨false, "保存失败", "文件未创建"⟩,
              dirEff ++ removeEff ++ [FsEffect.writeOutput fi.new_filename])

/-! ### Claim C6 -/

/-- Claim C6: in decrypt mode an open failure whose message indicates a
password mismatch is classified as the wrong-password outcome, and that
outcome differs from the source-missing outcome and from every generic
open-failure outcome. -/
theorem C6_wrong_password_classified (env : FileEnv) (fi : FileInfo) (msg : String)
    (hin : env.inputExists = true)
    (hopen : env.openResult = .error msg)
    (hpw : isPasswordError msg = true) :
    (decrypt_file env fi).1 = ⟨false, "密码错误或密码不匹配", "密码不正确"⟩ ∧
    (⟨false, "密码错误或密码不匹配", "密码不正确"⟩ : OpResult) ≠
      ⟨false, "输入文件不存在", "文件路径错误"⟩ ∧
    ∀ m : String, (⟨false, "密码错误或密码不匹配", "密码不正确"⟩ : OpResult) ≠
      ⟨false, "无法打开文件: " ++ m.take 50, "打开失败"⟩ := by
  refine ⟨?_, by decide, ?_⟩
  · simp [decrypt_file, hin, hopen, hpw]
  · intro m h
    have := congrArg OpResult.notes h
    simp at this

/-- Witness for C6 at a concrete environment: a protected workbook opened
with a wrong candidate password, the service raising the usual message. -/
theorem C6_witness :
    ((⟨true, true,
        Except.error "The password you supplied is not correct",
        Except.ok (), false, Except.ok (), true⟩ : FileEnv).inputExists = true ∧
      (⟨true, true,
        Except.error "The password you supplied is not correct",
        Except.ok (), false, Except.ok (), true⟩ : FileEnv).openResult =
        Except.error "The password you supplied is not correct" ∧
      isPasswordError "The password you supplied is not correct" = true) ∧
    (decrypt_file
      ⟨true, true, Except.error "The password you supplied is not correct",
        Except.ok (), false, Except.ok (), true⟩
      ⟨"c.xlsx", "c_dec.xlsx", "wrong", ""⟩).1 =
      ⟨false, "密码错误或密码不匹配", "密码不正确"⟩ :=
  ⟨⟨rfl, rfl, by decide⟩,
    (C6_wrong_password_classified
      ⟨true, true, Except.error "The password you supplied is not correct",
        Except.ok (), false, Except.ok (), true⟩
      ⟨"c.xlsx", "c_dec.xlsx", "wrong", ""⟩
      "The password you supplied is not correct" rfl rfl (by decide)).1⟩

/-! ## Batch loop: ProcessingThread.run, source lines 37-131

The loop at lines 67-109 walks self.file_list in order.  At the top of
each iteration it polls self.is_cancelled (line 68) and breaks when set;
`cancel i` is the value observed at iteration `i`.  The body calls
encrypt_file or decrypt_file and handles the triple: on ok it increments
success_count (line 91); otherwise it appends {filename, error: message}
to failed_files (lines 97-100); the surrounding `except Exception`
(lines 102-109) appends {filename, error: str(e)} when the processing of
this record raised.  `step i fi` abstracts the outcome of the body for
record `i` (the three cases of the triple plus the exception path);
reporter signal emissions are one-way Qt queued emits and are modelled
as non-raising, as the spec requires of the sink. -/

inductive StepOutcome where
  | ok (msg notes : String)
  | fail (msg notes : String)
  | exn (msg : String)
deriving DecidableEq

structure FailedFile where
  filename : String
  error : String
deriving DecidableEq

structure RunResults where
  success_count : Nat
  total_count : Nat
  failed_files : List FailedFile
deriving DecidableEq

def isOkOutcome : StepOutcome → Bool
  | .ok _ _ => true
  | .fail _ _ => false
  | .exn _ => false

/-- The failed_files entry appended for one record (lines 97-100 for a
returned failure triple, lines 106-109 for a raised exception). -/
def failedEntryOf (fi : FileInfo) : StepOutcome → Option FailedFile
  | .ok _ _ => none
  | .fail m _ => some ⟨fi.filename, m⟩
  | .exn m => some ⟨fi.filename, m⟩

/-- The record loop of run (lines 67-109): `i` is the index of the next
record, `s` the success counter, `fs` the failed_files list so far. -/
def processLoop (step : Nat → FileInfo → StepOutcome) (cancel : Nat → Bool) :
    List FileInfo → Nat → Nat → List FailedFile → Nat × List FailedFile
  | [], _, s, fs => (s, fs)
  | fi :: rest, i, s, fs =>
    if cancel i then (s, fs)
    else
      match step i fi with
      | .ok _ _ => processLoop step cancel rest (i + 1) (s + 1) fs
      | .fail m _ => processLoop step cancel rest (i + 1) s (fs ++ [⟨fi.filename, m⟩])
      | .exn m => processLoop step cancel rest (i + 1) s (fs ++ [⟨fi.filename, m⟩])

/-- The results dict of run: total_count is fixed at line 41; the final
success_count is written back at line 119. -/
def runBatch (step : Nat → FileInfo → StepOutcome) (cancel : Nat → Bool)
    (jobs : List FileInfo) : RunResults :=
  { success_count := (processLoop step cancel jobs 0 0 []).1,
    total_count := jobs.length,
    failed_files := (processLoop step cancel jobs 0 0 []).2 }

/-- The records the loop actually attempts: the prefix up to the first
iteration at which the cancellation poll (line 68) observes true.  This
list depends only on the cancellation observations, not on any per-file
outcome. -/
def attemptedJobs (cancel : Nat → Bool) : List FileInfo → Nat → List (Nat × FileInfo)
  | [], _ => []
  | fi :: rest, i =>
    if cancel i then [] else (i, fi) :: attemptedJobs cancel rest (i + 1)

/-- Records skipped because cancellation halted the loop. -/
def skippedCount (cancel : Nat → Bool) (jobs : List FileInfo) : Nat :=
  jobs.length - (attemptedJobs cancel jobs 0).length

/-! ### Batch loop lemmas -/

theorem processLoop_spec (step : Nat → FileInfo → StepOutcome) (cancel : Nat → Bool) :
    ∀ (jobs : List FileInfo) (i s : Nat) (fs : List FailedFile),
      processLoop step cancel jobs i s fs =
        (s + (attemptedJobs cancel jobs i).countP (fun pr => isOkOutcome (step pr.1 pr.2)),
         fs ++ (attemptedJobs cancel jobs i).filterMap
            (fun pr => failedEntryOf pr.2 (step pr.1 pr.2))) := by
  intro jobs
  induction jobs with
  | nil => intro i s fs; simp [processLoop, attemptedJobs]
  | cons fi rest ih =>
    intro i s fs
    by_cases hc : cancel i = true
    · simp [processLoop, attemptedJobs, hc]
    · simp only [processLoop, attemptedJobs, hc, Bool.false_eq_true, if_false]
      rcases hstep : step i fi with ⟨m, nts⟩ | ⟨m, nts⟩ | m
      · refine (ih (i + 1) (s + 1) fs).trans ?_
        have h1 : (fun pr : Nat × FileInfo => isOkOutcome (step pr.1 pr.2)) (i, fi) = true := by
          simp [hstep, isOkOutcome]
        have h2 : (fun pr : Nat × FileInfo => failedEntryOf pr.2 (step pr.1 pr.2)) (i, fi)
            = none := by
          simp [hstep, failedEntryOf]
        rw [List.countP_cons_of_pos (fun pr : Nat × FileInfo => isOkOutcome (step pr.1 pr.2)) _ h1,
          @List.filterMap_cons_none _ _
            (fun pr : Nat × FileInfo => failedEntryOf pr.2 (step pr.1 pr.2)) _ _ h2,
          Prod.mk.injEq]
        exact ⟨by omega, rfl⟩
      · refine (ih (i + 1) s (fs ++ [⟨fi.filename, m⟩])).trans ?_
        have h1 : ¬((fun pr : Nat × FileInfo => isOkOutcome (step pr.1 pr.2)) (i, fi) = true) := by
          simp [hstep, isOkOutcome]
        have h2 : (fun pr : Nat × FileInfo => failedEntryOf pr.2 (step pr.1 pr.2)) (i, fi)
            = some ⟨fi.filename, m⟩ := by
          simp [hstep, failedEntryOf]
        rw [List.countP_cons_of_neg (fun pr : Nat × FileInfo => isOkOutcome (step pr.1 pr.2)) _ h1,
          @List.filterMap_cons_some _ _
            (fun pr : Nat × FileInfo => failedEntryOf pr.2 (step pr.1 pr.2)) _ _ _ h2,
          Prod.mk.injEq]
        exact ⟨rfl, by simp⟩
      · refine (ih (i + 1) s (fs ++ [⟨fi.filename, m⟩])).trans ?_
        have h1 : ¬((fun pr : Nat × FileInfo => isOkOutcome (step pr.1 pr.2)) (i, fi) = true) := by
          simp [hstep, isOkOutcome]
        have h2 : (fun pr : Nat × FileInfo => failedEntryOf pr.2 (step pr.1 pr.2)) (i, fi)
            = some ⟨fi.filename, m⟩ := by
          simp [hstep, failedEntryOf]
        rw [List.countP_cons_of_neg (fun pr : Nat × FileInfo => isOkOutcome (step pr.1 pr.2)) _ h1,
          @List.filterMap_cons_some _ _
            (fun pr : Nat × FileInfo => failedEntryOf pr.2 (step pr.1 pr.2)) _ _ _ h2,
          Prod.mk.injEq]
        exact ⟨rfl, by simp⟩

theorem attemptedJobs_length_le (cancel : Nat → Bool) :
    ∀ (jobs : List FileInfo) (i : Nat),
      (attemptedJobs cancel jobs i).length ≤ jobs.length := by
  intro jobs
  induction jobs with
  | nil => intro i; simp [attemptedJobs]
  | cons fi rest ih =>
    intro i
    by_cases hc : cancel i = true
    · simp [attemptedJobs, hc]
    · simp only [attemptedJobs, hc, Bool.false_eq_true, if_false, List.length_cons]
      have := ih (i + 1)
      omega

theorem attemptedJobs_length_no_cancel (cancel : Nat → Bool)
    (h : ∀ i, cancel i = false) :
    ∀ (jobs : List FileInfo) (i : Nat),
      (attemptedJobs cancel jobs i).length = jobs.length := by
  intro jobs
  induction jobs with
  | nil => intro i; simp [attemptedJobs]
  | cons fi rest ih =>
    intro i
    simp only [attemptedJobs, h i, Bool.false_eq_true, if_false, List.length_cons]
    rw [ih (i + 1)]

theorem countP_add_filterMap_length (step : Nat → FileInfo → StepOutcome)
    (l : List (Nat × FileInfo)) :
    l.countP (fun pr => isOkOutcome (step pr.1 pr.2))
      + (l.filterMap (fun pr => failedEntryOf pr.2 (step pr.1 pr.2))).length
      = l.length := by
  induction l with
  | nil => rfl
  | cons a l ih =>
    rcases hstep : step a.1 a.2 with ⟨m, nts⟩ | ⟨m, nts⟩ | m
    · have h1 : (fun pr : Nat × FileInfo => isOkOutcome (step pr.1 pr.2)) a = true := by
        simp [hstep, isOkOutcome]
      have h2 : (fun pr : Nat × FileInfo => failedEntryOf pr.2 (step pr.1 pr.2)) a = none := by
        simp [hstep, failedEntryOf]
      rw [List.countP_cons_of_pos (fun pr : Nat × FileInfo => isOkOutcome (step pr.1 pr.2)) _ h1,
        @List.filterMap_cons_none _ _
          (fun pr : Nat × FileInfo => failedEntryOf pr.2 (step pr.1 pr.2)) _ _ h2,
        List.length_cons]
      omega
    · have h1 : ¬((fun pr : Nat × FileInfo => isOkOutcome (step pr.1 pr.2)) a = true) := by
        simp [hstep, isOkOutcome]
      have h2 : (fun pr : Nat × FileInfo => failedEntryOf pr.2 (step pr.1 pr.2)) a
          = some ⟨a.2.filename, m⟩ := by
        simp [hstep, failedEntryOf]
      rw [List.countP_cons_of_neg (fun pr : Nat × FileInfo => isOkOutcome (step pr.1 pr.2)) _ h1,
        @List.filterMap_cons_some _ _
          (fun pr : Nat × FileInfo => failedEntryOf pr.2 (step pr.1 pr.2)) _ _ _ h2,
        List.length_cons, List.length_cons]
      omega
    · have h1 : ¬((fun pr : Nat × FileInfo => isOkOutcome (step pr.1 pr.2)) a = true) := by
        simp [hstep, isOkOutcome]
      have h2 : (fun pr : Nat × FileInfo => failedEntryOf pr.2 (step pr.1 pr.2)) a
          = some ⟨a.2.filename, m⟩ := by
        simp [hstep, failedEntryOf]
      rw [List.countP_cons_of_neg (fun pr : Nat × FileInfo => isOkOutcome (step pr.1 pr.2)) _ h1,
        @List.filterMap_cons_some _ _
          (fun pr : Nat × FileInfo => failedEntryOf pr.2 (step pr.1 pr.2)) _ _ _ h2,
        List.length_cons, List.length_cons]
      omega

/-! ### Claims C1 and C2 -/

/-- Claim C1: every attempted record whose processing fails (returned
failure triple or raised exception) contributes exactly its
{filename, error} entry to failed_files, in order; the set of attempted
records is `attemptedJobs`, a function of the cancellation observations
alone — per-file failures never shorten it, and with no cancellation
every record of the batch is attempted. -/
theorem C1_failures_recorded_batch_continues (step : Nat → FileInfo → StepOutcome)
    (cancel : Nat → Bool) (jobs : List FileInfo) :
    (runBatch step cancel jobs).failed_files =
      (attemptedJobs cancel jobs 0).filterMap
        (fun pr => failedEntryOf pr.2 (step pr.1 pr.2)) ∧
    ((∀ i, cancel i = false) →
      (attemptedJobs cancel jobs 0).length = jobs.length) := by
  constructor
  · have h := processLoop_spec step cancel jobs 0 0 []
    simp [runBatch, h]
  · intro h
    exact attemptedJobs_length_no_cancel cancel h jobs 0

/-- Witness for C1: two records, the first fails and the second is still
attempted and succeeds; no cancellation, so both records are attempted. -/
theorem C1_witness :
    (runBatch
        (fun i _ => if i = 0 then StepOutcome.fail "加密失败: x" "加密异常"
                    else StepOutcome.ok "加密成功" "")
        (fun _ => false)
        [⟨"a.xlsx", "a_enc.xlsx", "p", ""⟩, ⟨"b.xlsx", "b_enc.xlsx", "p", ""⟩]).failed_files
      = (attemptedJobs (fun _ => false)
            [⟨"a.xlsx", "a_enc.xlsx", "p", ""⟩, ⟨"b.xlsx", "b_enc.xlsx", "p", ""⟩] 0).filterMap
          (fun pr => failedEntryOf pr.2
            ((fun i _ => if i = 0 then StepOutcome.fail "加密失败: x" "加密异常"
                         else StepOutcome.ok "加密成功" "") pr.1 pr.2)) ∧
    (attemptedJobs (fun _ => false)
        [⟨"a.xlsx", "a_enc.xlsx", "p", ""⟩, ⟨"b.xlsx", "b_enc.xlsx", "p", ""⟩] 0).length
      = ([⟨"a.xlsx", "a_enc.xlsx", "p", ""⟩, ⟨"b.xlsx", "b_enc.xlsx", "p", ""⟩] :
          List FileInfo).length :=
  ⟨(C1_failures_recorded_batch_continues _ _ _).1,
    (C1_failures_recorded_batch_continues
      (fun i _ => if i = 0 then StepOutcome.fail "加密失败: x" "加密异常"
                  else StepOutcome.ok "加密成功" "")
      (fun _ => false)
      [⟨"a.xlsx", "a_enc.xlsx", "p", ""⟩, ⟨"b.xlsx", "b_enc.xlsx", "p", ""⟩]).2
      (fun _ => rfl)⟩

/-- Claim C2: for every run, success_count plus the number of
failed_files entries equals the number of records actually attempted,
and adding the records skipped by cancellation gives total_count. -/
theorem C2_count_invariant (step : Nat → FileInfo → StepOutcome)
    (cancel : Nat → Bool) (jobs : List FileInfo) :
    (runBatch step cancel jobs).success_count
        + (runBatch step cancel jobs).failed_files.length
      = (attemptedJobs cancel jobs 0).length ∧
    (runBatch step cancel jobs).success_count
        + (runBatch step cancel jobs).failed_files.length
        + skippedCount cancel jobs
      = (runBatch step cancel jobs).total_count := by
  have hspec := processLoop_spec step cancel jobs 0 0 []
  have hcount := countP_add_filterMap_length step (attemptedJobs cancel jobs 0)
  have hle := attemptedJobs_length_le cancel jobs 0
  constructor
  · simp [runBatch, hspec]
    omega
  · simp [runBatch, hspec, skippedCount]
    omega

/-! ## File-system effects of a whole run (claim C8)

ProcessingThread.run first deletes Excel lock artifacts from the INPUT
folder (clean_temp_files, source lines 59-60 and 133-140: every entry of
os.listdir(self.input_path) whose name starts with the tilde-dollar
marker is removed), then walks the records; each record's file-system
effects come from encrypt_file or decrypt_file. -/

/-- ProcessingThread.clean_temp_files, source lines 133-140:
os.remove(os.path.join(self.input_path, f)) for every listed name
starting with the lock-file marker. -/
def clean_temp_files (listing : List String) : List FsEffect :=
  listing.filterMap
    (fun f => if strStartsWith f "~$" then some (FsEffect.removeInput f) else none)

/-- The per-record dispatch of run, source lines 85-88. -/
def processOne (is_encrypt : Bool) (env : FileEnv) (fi : FileInfo) :
    OpResult × List FsEffect :=
  if is_encrypt then encrypt_file env fi else decrypt_file env fi

/-- File-system effects of the record loop (source lines 67-109), with
`envOf i` the external-call outcomes for record `i`. -/
def loopEffects (is_encrypt : Bool) (envOf : Nat → FileEnv) (cancel : Nat → Bool) :
    List FileInfo → Nat → List FsEffect
  | [], _ => []
  | fi :: rest, i =>
    if cancel i then []
    else (processOne is_encrypt (envOf i) fi).2
      ++ loopEffects is_encrypt envOf cancel rest (i + 1)

/-- File-system effects of a whole run (lines 45-131): the input-folder
cleanup followed by the per-record effects. -/
def runEffects (is_encrypt : Bool) (envOf : Nat → FileEnv) (cancel : Nat → Bool)
    (listing : List String) (jobs : List FileInfo) : List FsEffect :=
  clean_temp_files listing ++ loopEffects is_encrypt envOf cancel jobs 0

def defaultFileEnv : FileEnv :=
  ⟨true, true, Except.ok (), Except.ok (), false, Except.ok (), true⟩

/-! ### Effect shape lemmas -/

theorem encrypt_effects_shape (env : FileEnv) (fi : FileInfo) (e : FsEffect)
    (he : e ∈ (encrypt_file env fi).2) :
    e = FsEffect.makeOutputDir ∨ e = FsEffect.writeOutput fi.new_filename := by
  by_cases hpw : fi.password = "" <;>
  rcases hin : env.inputExists with _ | _ <;>
  rcases hdir : env.outputDirExists with _ | _ <;>
  rcases hopen : env.openResult with ⟨msg⟩ | ⟨u⟩ <;>
  rcases hset : env.setPasswordResult with ⟨msg2⟩ | ⟨u2⟩ <;>
  rcases hsave : env.saveResult with ⟨msg3⟩ | ⟨u3⟩ <;>
  rcases hafter : env.outputExistsAfterSave with _ | _ <;>
  simp only [encrypt_file, hpw, hin, hdir, hopen, hset, hsave, hafter] at he <;>
  simp at he <;>
  tauto

theorem decrypt_effects_shape (env : FileEnv) (fi : FileInfo) (e : FsEffect)
    (he : e ∈ (decrypt_file env fi).2) :
    e = FsEffect.makeOutputDir ∨ e = FsEffect.removeOutput fi.new_filename ∨
      e = FsEffect.writeOutput fi.new_filename := by
  rcases hin : env.inputExists with _ | _ <;>
  rcases hdir : env.outputDirExists with _ | _ <;>
  rcases hopen : env.openResult with ⟨msg⟩ | ⟨u⟩ <;>
  rcases hbefore : env.outputExistsBefore with _ | _ <;>
  rcases hsave : env.saveResult with ⟨msg3⟩ | ⟨u3⟩ <;>
  rcases hafter : env.outputExistsAfterSave with _ | _ <;>
  simp only [decrypt_file, hin, hdir, hopen, hbefore, hsave, hafter] at he <;>
  simp at he <;>
  tauto

theorem clean_temp_files_shape (listing : List String) (e : FsEffect)
    (he : e ∈ clean_temp_files listing) :
    ∃ f, e = FsEffect.removeInput f ∧ strStartsWith f "~$" = true := by
  simp only [clean_temp_files, List.mem_filterMap] at he
  obtain ⟨f, _, hif⟩ := he
  by_cases hs : strStartsWith f "~$" = true
  · rw [if_pos hs] at hif
    exact ⟨f, (Option.some.inj hif).symm, hs⟩
  · rw [if_neg hs] at hif
    simp at hif

theorem loopEffects_shape (b : Bool) (envOf : Nat → FileEnv) (cancel : Nat → Bool) :
    ∀ (jobs : List FileInfo) (i : Nat) (e : FsEffect),
      e ∈ loopEffects b envOf cancel jobs i →
      ∃ fi, fi ∈ jobs ∧ (e = FsEffect.makeOutputDir ∨
        e = FsEffect.removeOutput fi.new_filename ∨
        e = FsEffect.writeOutput fi.new_filename) := by
  intro jobs
  induction jobs with
  | nil => intro i e he; simp [loopEffects] at he
  | cons fi rest ih =>
    intro i e he
    by_cases hc : cancel i = true
    · simp [loopEffects, hc] at he
    · simp only [loopEffects, hc, Bool.false_eq_true, if_false, List.mem_append] at he
      rcases he with he | he
      · refine ⟨fi, by simp, ?_⟩
        cases b
        · exact decrypt_effects_shape (envOf i) fi e (by simpa [processOne] using he)
        · have := encrypt_effects_shape (envOf i) fi e (by simpa [processOne] using he)
          tauto
      · obtain ⟨fi2, h1, h2⟩ := ih (i + 1) e he
        exact ⟨fi2, by simp [h1], h2⟩

/-! ### Claim C8 -/

/-- Claim C8 counterexample: with a lock artifact in the input folder
listing, the run removes a file under the input folder
(clean_temp_files, lines 135-140), contradicting the claim that the
engine never removes any file there. -/
theorem C8_counterexample :
    FsEffect.removeInput "~$book.xlsx" ∈
      runEffects true (fun _ => defaultFileEnv) (fun _ => false)
        ["~$book.xlsx", "book.xlsx"] [] := by
  decide

/-- Claim C8 (amended): the only input-folder mutations a run performs
are removals of lock/temporary artifacts whose name starts with the
tilde-dollar marker (the startup cleanup); every other file-system
effect is the creation of the output directory or a removal or write at
the output location under some job's precomputed new_filename.  Source
documents in the input folder are never written. -/
theorem C8_effects_located (b : Bool) (envOf : Nat → FileEnv) (cancel : Nat → Bool)
    (listing : List String) (jobs : List FileInfo) (e : FsEffect)
    (he : e ∈ runEffects b envOf cancel listing jobs) :
    (∃ f, e = FsEffect.removeInput f ∧ strStartsWith f "~$" = true) ∨
    e = FsEffect.makeOutputDir ∨
    (∃ fi, fi ∈ jobs ∧ (e = FsEffect.removeOutput fi.new_filename ∨
      e = FsEffect.writeOutput fi.new_filename)) := by
  simp only [runEffects, List.mem_append] at he
  rcases he with he | he
  · exact Or.inl (clean_temp_files_shape listing e he)
  · obtain ⟨fi, h1, h2⟩ := loopEffects_shape b envOf cancel jobs 0 e he
    rcases h2 with h2 | h2 | h2
    · exact Or.inr (Or.inl h2)
    · exact Or.inr (Or.inr ⟨fi, h1, Or.inl h2⟩)
    · exact Or.inr (Or.inr ⟨fi, h1, Or.inr h2⟩)

/-- Witness for C8 (amended) at a concrete run over one decrypted record
and one lock artifact in the listing. -/
theorem C8_witness :
    (FsEffect.writeOutput "b_dec.xlsx" ∈
      runEffects false (fun _ => defaultFileEnv) (fun _ => false) ["~$lock.xlsx"]
        [⟨"b.xlsx", "b_dec.xlsx", "pw", ""⟩]) ∧
    ((∃ f, FsEffect.writeOutput "b_dec.xlsx" = FsEffect.removeInput f ∧
        strStartsWith f "~$" = true) ∨
      FsEffect.writeOutput "b_dec.xlsx" = FsEffect.makeOutputDir ∨
      (∃ fi, fi ∈ [(⟨"b.xlsx", "b_dec.xlsx", "pw", ""⟩ : FileInfo)] ∧
        (FsEffect.writeOutput "b_dec.xlsx" = FsEffect.removeOutput fi.new_filename ∨
          FsEffect.writeOutput "b_dec.xlsx" = FsEffect.writeOutput fi.new_filename))) :=
  ⟨by decide,
    C8_effects_located false (fun _ => defaultFileEnv) (fun _ => false) ["~$lock.xlsx"]
      [⟨"b.xlsx", "b_dec.xlsx", "pw", ""⟩] (FsEffect.writeOutput "b_dec.xlsx") (by decide)⟩

/-! ## Session lifecycle of a run (claim C9)

Control-flow skeleton of ProcessingThread.run, source lines 45-131:
the try block performs pythoncom.CoInitialize (line 46), acquires the
Excel session via Dispatch plus its property settings (lines 49-57),
runs the loop, then attempts excel.Quit inside a try/except (lines
112-116) and emits the results; the `except Exception` at line 124 only
logs; the `finally` at lines 127-131 attempts pythoncom.CoUninitialize.
excel.Quit is NOT inside the finally block.  A `RunFault` says where an
unexpected exception (one not caught by the per-record handler, e.g.
raised at lines 46, 49-57, or at the per-record field reads 72-77 that
sit outside the inner try) fires; `noFault` covers both normal
completion and cancellation, which leave the loop via the same path and
reach excel.Quit (the break at line 70 falls through to line 112). -/

inductive SessionEvent where
  | coInit
  | acquire
  | quitSession
  | coUninit
deriving DecidableEq

inductive RunFault where
  | noFault
  | coInitRaises
  | dispatchRaises
  | afterAcquire
deriving DecidableEq

/-- The session-level events of a run, in order, for each way the run
can end. -/
def runSessionTrace : RunFault → List SessionEvent
  | .noFault => [.coInit, .acquire, .quitSession, .coUninit]
  | .coInitRaises => [.coUninit]
  | .dispatchRaises => [.coInit, .coUninit]
  | .afterAcquire => [.coInit, .acquire, .coUninit]

def countEvent (ev : SessionEvent) (tr : List SessionEvent) : Nat :=
  tr.countP (fun x => x == ev)

/-! ### Claim C9 -/

/-- Claim C9 counterexample: a run that acquires the session and then
hits an unexpected fault outside the per-record handler (e.g. a raise at
the record field reads, lines 72-77, caught only by the outer except at
line 124) never terminates the Excel session: excel.Quit (lines
112-116) is inside the try body, not in the finally block, so the
session leaks — only CoUninitialize runs. -/
theorem C9_counterexample :
    SessionEvent.acquire ∈ runSessionTrace RunFault.afterAcquire ∧
    countEvent SessionEvent.quitSession (runSessionTrace RunFault.afterAcquire) = 0 := by
  decide

/-- Claim C9 (amended): the session termination call is made exactly
once on normal completion and on cancellation (both reach line 112), and
the COM uninitialize in the finally block runs exactly once on every
ending; but on an unexpected fault after acquisition the termination
call is skipped entirely, so guaranteed cleanup does not extend to the
session itself. -/
theorem C9_session_cleanup (f : RunFault) :
    countEvent SessionEvent.quitSession (runSessionTrace RunFault.noFault) = 1 ∧
    countEvent SessionEvent.coUninit (runSessionTrace f) = 1 ∧
    countEvent SessionEvent.quitSession (runSessionTrace RunFault.afterAcquire) = 0 := by
  refine ⟨by decide, ?_, by decide⟩
  cases f <;> decide

/-! ## Validation gate: ExcelProtectorGUI.validate_selection (source
lines 867-896) and ExcelProtectorGUI.start_processing (source lines
898-966), claim C3

validate_selection checks, in order: at least one selected file, a
non-empty output folder, os.makedirs succeeding (outcome `mkdirOk`,
message `mkdirErr`), and — in encrypt mode only — that no selected file
has an empty password.  start_processing refuses to start when a run is
in progress, when the input folder does not exist, when validation
fails, or when the user declines the confirmation dialog; only otherwise
does it construct and start the ProcessingThread. -/

/-- The file names of selected records with an empty password (source
lines 885-888). -/
def emptyPasswordFiles (selected : List FileInfo) : List String :=
  (selected.filter (fun fi => fi.password = "")).map (fun fi => fi.filename)

/-- The warning text built at source lines 891-894. -/
def emptyPasswordMessage (files : List String) : String :=
  let fileList := String.intercalate "\n" (files.take 5)
  let fileList2 := if files.length > 5
    then fileList ++ "\n...等 " ++ toString files.length ++ " 个文件"
    else fileList
  "以下文件没有设置密码：\n" ++ fileList2

/-- ExcelProtectorGUI.validate_selection, source lines 867-896. -/
def validate_selection (selected : List FileInfo) (output_path : String)
    (mkdirOk : Bool) (mkdirErr : String) (is_encrypt : Bool) : Bool × String :=
  if selected.isEmpty then (false, "请至少选择一个文件！")
  else if output_path = "" then (false, "请设置输出文件夹！")
  else if mkdirOk = false then (false, "无法创建输出文件夹: " ++ mkdirErr)
  else if is_encrypt then
    if (emptyPasswordFiles selected).isEmpty then (true, "")
    else (false, emptyPasswordMessage (emptyPasswordFiles selected))
  else (true, "")

/-- The configuration handed to the ProcessingThread constructor at
source lines 954-960. -/
structure RunConfig where
  input_path : String
  output_path : String
  file_list : List FileInfo
  is_encrypt : Bool

/-- ExcelProtectorGUI.start_processing, source lines 898-966: `none`
means the method returned without creating the thread. -/
def start_processing (is_processing : Bool) (input_path : String)
    (inputExists : Bool) (selected : List FileInfo) (output_path : String)
    (mkdirOk : Bool) (mkdirErr : String) (is_encrypt : Bool)
    (userConfirms : Bool) : Option RunConfig :=
  if is_processing then none
  else if inputExists = false then none
  else if (validate_selection selected output_path mkdirOk mkdirErr is_encrypt).1 = false
    then none
  else if userConfirms = false then none
  else some ⟨input_path, output_path, selected, is_encrypt⟩

/-- File-system effects of a whole submission: none when
start_processing refuses to start, otherwise the effects of the run the
created thread performs. -/
def submissionEffects (is_processing : Bool) (input_path : String)
    (inputExists : Bool) (selected : List FileInfo) (output_path : String)
    (mkdirOk : Bool) (mkdirErr : String) (is_encrypt : Bool) (userConfirms : Bool)
    (envOf : Nat → FileEnv) (cancel : Nat → Bool) (listing : List String) :
    List FsEffect :=
  match start_processing is_processing input_path inputExists selected output_path
      mkdirOk mkdirErr is_encrypt userConfirms with
  | none => []
  | some cfg => runEffects cfg.is_encrypt envOf cancel listing cfg.file_list

/-! ### Claim C3 -/

/-- Claim C3: in encrypt mode, when any selected record has an empty
password, validation fails, the run never starts, and the submission has
no file-system effects at all: no document is opened, no output file is
written, no per-file outcome is recorded. -/
theorem C3_empty_password_blocks_run (is_processing : Bool) (input_path : String)
    (inputExists : Bool) (selected : List FileInfo) (output_path : String)
    (mkdirOk : Bool) (mkdirErr : String) (userConfirms : Bool)
    (envOf : Nat → FileEnv) (cancel : Nat → Bool) (listing : List String)
    (hemp : ∃ fi ∈ selected, fi.password = "") :
    (validate_selection selected output_path mkdirOk mkdirErr true).1 = false ∧
    start_processing is_processing input_path inputExists selected output_path
      mkdirOk mkdirErr true userConfirms = none ∧
    submissionEffects is_processing input_path inputExists selected output_path
      mkdirOk mkdirErr true userConfirms envOf cancel listing = [] := by
  obtain ⟨fi0, hmem, hpw⟩ := hemp
  have hmem2 : fi0.filename ∈ emptyPasswordFiles selected := by
    simp only [emptyPasswordFiles, List.mem_map, List.mem_filter]
    exact ⟨fi0, ⟨hmem, by simp [hpw]⟩, rfl⟩
  have hne : (emptyPasswordFiles selected).isEmpty = false := by
    cases hlist : emptyPasswordFiles selected
    · rw [hlist] at hmem2
      simp at hmem2
    · rfl
  have hval : (validate_selection selected output_path mkdirOk mkdirErr true).1 = false := by
    unfold validate_selection
    split
    · rfl
    · split
      · rfl
      · split
        · rfl
        · rw [if_pos rfl, if_neg (by simp [hne])]
  have hstart : start_processing is_processing input_path inputExists selected
      output_path mkdirOk mkdirErr true userConfirms = none := by
    simp [start_processing, hval]
  refine ⟨hval, hstart, ?_⟩
  unfold submissionEffects
  rw [hstart]

/-- Witness for C3 at a concrete selection containing a record with an
empty password. -/
theorem C3_witness :
    ((⟨"a.xlsx", "a_enc.xlsx", "", ""⟩ : FileInfo) ∈
        [(⟨"a.xlsx", "a_enc.xlsx", "", ""⟩ : FileInfo)] ∧
      (⟨"a.xlsx", "a_enc.xlsx", "", ""⟩ : FileInfo).password = "") ∧
    (validate_selection [⟨"a.xlsx", "a_enc.xlsx", "", ""⟩] "out" true "" true).1 = false ∧
    start_processing false "in" true [⟨"a.xlsx", "a_enc.xlsx", "", ""⟩] "out"
      true "" true true = none ∧
    submissionEffects false "in" true [⟨"a.xlsx", "a_enc.xlsx", "", ""⟩] "out"
      true "" true true (fun _ => defaultFileEnv) (fun _ => false) [] = [] :=
  ⟨⟨by decide, rfl⟩,
    C3_empty_password_blocks_run false "in" true [⟨"a.xlsx", "a_enc.xlsx", "", ""⟩]
      "out" true "" true (fun _ => defaultFileEnv) (fun _ => false) []
      ⟨⟨"a.xlsx", "a_enc.xlsx", "", ""⟩, by decide, rfl⟩⟩

end ExcelTool
